import Mathlib

/-!
Shallow embedding of the adversify-orchestration pipeline core.

Python dicts flowing through the pipeline are embedded as Lean structures;
a field whose key may be missing from the dict is an `Option`, and reading a
missing key is an explicit `PyErr.keyError`.  Fallible code returns
`Except PyErr`.  External collaborators (the classification HTTP service,
the Google custom-search HTTP endpoint, `urllib.parse.quote`,
`dateutil.parser.parse`) are passed in as function parameters.
Python float scores are modelled as rationals.
-/

/-- Python exception values that the embedded code can raise. -/
inductive PyErr where
  | keyError (key : String)
  | httpError (status : Nat)
  | other (msg : String)
deriving DecidableEq, Repr

/-- Reads a dict key modelled as an `Option` field, raising `KeyError` when absent. -/
def getKey (v : Option α) (key : String) : Except PyErr α :=
  match v with
  | some a => .ok a
  | none => .error (.keyError key)

/-- An item record as it flows from text-body assembly into batching, classification
and ranking.  `text_body` is `none` when the `text_body` key is missing from the dict
(the internal-failure case the batcher guards against); the four scoring fields are
`none` until `to_scored_item` sets them. -/
structure Item where
  title : String
  link : String
  date : Option String
  text_body : Option String
  score : Option ℚ := none
  severity : Option ℚ := none
  scoring_errors : Option String := none
  scoring_title : Option String := none
deriving DecidableEq, Repr

namespace ClassifyAction

/-- A snippet object of the classify request payload (`to_classify_snippet` output). -/
structure ClassifySnippet where
  title : String
  snippet : String
  url : String
  date : Option String
deriving DecidableEq, Repr

/-- The classify request payload: `{'name': search_term, 'snippets': [...]}`. -/
structure ClassifyRequest where
  name : String
  snippets : List ClassifySnippet
deriving DecidableEq, Repr

/-- One score object of a well-formed classify response. -/
structure ScoreObj where
  score : ℚ
  severity : ℚ
  error : String
  title : String
deriving DecidableEq, Repr

/-- A well-formed classify response body (`response_data` with its `scores` list).
Transport errors, non-success statuses and malformed bodies are the `.error`
values of the collaborator parameter. -/
structure ClassifyResponse where
  scores : List ScoreObj
deriving DecidableEq, Repr

/-- Embeds `to_classify_snippet`: reading `item['text_body']` raises when the key
is missing; otherwise builds the snippet dict. -/
def to_classify_snippet (item : Item) : Except PyErr ClassifySnippet :=
  match item.text_body with
  | none => .error (.keyError "text_body")
  | some tb => .ok { title := item.title, snippet := tb, url := item.link, date := item.date }

/-- Embeds `to_scored_item`: sets the four scoring fields of the item from a score dict. -/
def to_scored_item (item : Item) (score : ScoreObj) : Item :=
  { item with
    score := some score.score
    severity := some score.severity
    scoring_errors := some score.error
    scoring_title := some score.title }

/-- Embeds `get_default_score`: the neutral fallback score dict. -/
def get_default_score (item : Item) (error : String) : ScoreObj :=
  { score := 0, severity := 0, error := error, title := item.title }

/-- Embeds the comprehension `[to_classify_snippet(item) for item in items]`:
left to right, the first raise aborts the whole list. -/
def classifySnippets : List Item → Except PyErr (List ClassifySnippet)
  | [] => .ok []
  | item :: rest =>
    match to_classify_snippet item with
    | .error e => .error e
    | .ok s =>
      match classifySnippets rest with
      | .error e => .error e
      | .ok ss => .ok (s :: ss)

/-- Embeds `ClassifyAction.main`.  The `call` parameter is the classification
HTTP collaborator: its `.error` values cover transport errors, non-success
statuses (`raise_for_status`) and malformed response bodies.  On success the
code zips the batch with the response scores (Python `zip` truncates to the
shorter list); on any raise every item gets the neutral fallback. -/
def main (call : ClassifyRequest → Except PyErr ClassifyResponse)
    (input : String × String × List Item) : List Item :=
  let (_, search_term, items) := input
  let attempt : Except PyErr (List Item) := do
    let snippets ← classifySnippets items
    let response ← call { name := search_term, snippets := snippets }
    pure ((items.zip response.scores).map fun p => to_scored_item p.1 p.2)
  match attempt with
  | .ok result => result
  | .error _ =>
    items.map fun item => to_scored_item item (get_default_score item "Classification call failed")

end ClassifyAction

namespace ClassifyBatchingAction

/-- Embeds the `for item in items` loop of `ClassifyBatchingAction.main`.
State threaded through: `current_batch_length`, `current_batch`, `batches`.
Faithful to the source, `current_batch_length` is NOT reset when a batch is
closed — only `current_batch` is.  Reading a missing `text_body` key raises. -/
def batchLoop (max_batch_size : Nat) :
    List Item → Nat → List Item → List (List Item) →
    Except PyErr (List (List Item) × List Item)
  | [], _, current_batch, batches => .ok (batches, current_batch)
  | item :: rest, current_batch_length, current_batch, batches =>
    match item.text_body with
    | none => .error (.keyError "text_body")
    | some tb =>
      let current_batch := current_batch ++ [item]
      let current_batch_length := current_batch_length + tb.utf8ByteSize
      if current_batch_length > max_batch_size then
        batchLoop max_batch_size rest current_batch_length [] (batches ++ [current_batch])
      else
        batchLoop max_batch_size rest current_batch_length current_batch batches

/-- Embeds `ClassifyBatchingAction.main`: `max_batch_size` is the configured
KB-like size times 1000; the trailing unfinished batch is appended when
non-empty; any raise inside the loop degrades to a single batch of all items. -/
def main (classify_batch_size : Nat) (items : List Item) : List (List Item) :=
  let max_batch_size := classify_batch_size * 1000
  match batchLoop max_batch_size items 0 [] [] with
  | .ok (batches, current_batch) =>
    if current_batch.length > 0 then batches ++ [current_batch] else batches
  | .error _ => [items]

end ClassifyBatchingAction

namespace SearchAction

/-- A parsed (JSON) response body of one Google custom-search page.  `items` is
`none` when the body has no `items` key; `nextStartIndex` is `some i` when
`queries.nextPage[0].startIndex` is present (`i` being that start index), and
`none` otherwise.  Parameterised over the raw-hit type `H`. -/
structure GoogleResponse (H : Type _) where
  items : Option (List H)
  nextStartIndex : Option Nat
deriving DecidableEq, Repr

/-- Embeds the `while has_more_pages and page <= depth` loop of
`SearchAction.main`.  The first argument of the recursion is the number of
loop iterations still allowed (initially `depth`, since `page` starts at 1 and
the loop runs while `page <= depth`); the second is `nextIndex`.  The `fetch`
collaborator performs one page call: its `.error` values cover transport
errors, non-success statuses and JSON parse failures, and such a raise
propagates out of the whole loop (the source logs and re-raises). -/
def fetchLoop {H : Type _} (fetch : Nat → Except PyErr (GoogleResponse H)) :
    Nat → Nat → Except PyErr (List (GoogleResponse H))
  | 0, _ => .ok []
  | budget + 1, nextIndex =>
    match fetch nextIndex with
    | .error e => .error e
    | .ok response =>
      match response.nextStartIndex with
      | some i =>
        match fetchLoop fetch budget i with
        | .error e => .error e
        | .ok rest => .ok (response :: rest)
      | none => .ok [response]

/-- Embeds the final comprehension
`[item for result in all_results for item in result['items']]`: reading a
missing `items` key raises; otherwise the pages' hits are concatenated in
page order. -/
def flattenResults {H : Type _} : List (GoogleResponse H) → Except PyErr (List H)
  | [] => .ok []
  | r :: rs =>
    match r.items with
    | none => .error (.keyError "items")
    | some hs =>
      match flattenResults rs with
      | .error e => .error e
      | .ok rest => .ok (hs ++ rest)

/-- Embeds `SearchAction.main` for one language: run the pagination loop
starting at index 1 with `depth` allowed pages, then flatten the collected
page bodies. -/
def main {H : Type _} (fetch : Nat → Except PyErr (GoogleResponse H)) (depth : Nat) :
    Except PyErr (List H) :=
  match fetchLoop fetch depth 1 with
  | .error e => .error e
  | .ok all_results => flattenResults all_results

end SearchAction

namespace OrchestrateSearch

/-- Embeds `search_results.sort(key=lambda r: r['score'], reverse=True)`.
CPython list sort is the stable ascending sort by key, and `reverse=True`
reverses the list before and after sorting, which yields exactly the stable
descending sort by key; `List.mergeSort` with `le a b := score b ≤ score a`
is that same stable descending sort. -/
def sort_results (getScore : α → ℚ) (results : List α) : List α :=
  results.mergeSort fun a b => decide (getScore b ≤ getScore a)

/-- Embeds `OrchestrateSearch.orchestrator_function`.  `configured_languages`
models the key set of `Config.get_configured_languages()`; `sub_orchestrator`
models `call_sub_orchestrator('OrchestrateLanguageSearch', (language,
search_term, depth))` followed by the join, i.e. the scored item list one
language branch produces; `getScore` models the `r['score']` key lookup of the
sort. -/
def orchestrator_function (getScore : α → ℚ) (configured_languages : List String)
    (selected_languages : List String) (search_term : String) (depth : Nat)
    (sub_orchestrator : String → String → Nat → List α) : List α :=
  if configured_languages.isEmpty then []
  else
    let search_results :=
      (selected_languages.filter fun language => configured_languages.contains language).flatMap
        fun language => sub_orchestrator language search_term depth
    sort_results getScore search_results

end OrchestrateSearch

namespace GoogleMetadata

/-- One entry of a `cse_thumbnail` or `cse_image` list: a dict whose `src` key
may be missing. -/
structure CseEntry where
  src : Option String
deriving DecidableEq, Repr

/-- The `pagemap` dict of a raw Google search result item; each key may be
missing.  A metatags entry is a dict embedded as a string-to-string
association list. -/
structure PageMap where
  metatags : Option (List (List (String × String)))
  cse_thumbnail : Option (List CseEntry)
  cse_image : Option (List CseEntry)
deriving DecidableEq, Repr

/-- A raw Google search result item.  Each field is `none` when the
corresponding dict key is missing. -/
structure RawHit where
  title : Option String
  snippet : Option String
  htmlSnippet : Option String
  link : Option String
  pagemap : Option PageMap
deriving DecidableEq, Repr

/-- The normalized metadata dictionary `get_metadata_for_item` builds. -/
structure ItemMetadata where
  title : String
  titles : List String
  snippet : String
  html_snippet : String
  snippets : List String
  link : String
  text_extraction_possible : Bool
  image : Option String
  date : Option String
  id : String
deriving DecidableEq, Repr

/-- Looks a key up in a metadata dict (embedded as an association list),
as Python `metadata[key]` guarded by `key in metadata`. -/
def lookupMeta (metadata : List (String × String)) (key : String) : Option String :=
  (metadata.find? fun p => p.1 == key).map fun p => p.2

/-- Embeds the Python substring test `needle in hay` for strings. -/
def strContains (hay needle : String) : Bool :=
  (hay.splitOn needle).length > 1

/-- Embeds `_get_metadata_dictionary`: the first metatags entry when
`pagemap`, `metatags` and a non-empty list are all present, else the empty
dict.  Nothing in this model can raise, so the source's `except` arm (which
also returns the empty dict) is not reachable here. -/
def _get_metadata_dictionary (item : RawHit) : List (String × String) :=
  match item.pagemap with
  | some pm =>
    match pm.metatags with
    | some (m :: _) => m
    | _ => []
  | none => []

/-- Embeds `_get_titles`: reads `item['title']` (raising when the key is
missing), then appends `og:title`, `twitter:title` and `title` metadata
values when the metadata dict is truthy (non-empty). -/
def _get_titles (item : RawHit) (metadata : List (String × String)) :
    Except PyErr (List String) :=
  match item.title with
  | none => .error (.keyError "title")
  | some t =>
    .ok (if metadata.isEmpty then [t]
      else [t] ++ (lookupMeta metadata "og:title").toList
        ++ (lookupMeta metadata "twitter:title").toList
        ++ (lookupMeta metadata "title").toList)

/-- Embeds `_get_snippets`: reads `item['snippet']` (raising when the key is
missing), then appends `og:description` and `twitter:description` metadata
values when the metadata dict is truthy. -/
def _get_snippets (item : RawHit) (metadata : List (String × String)) :
    Except PyErr (List String) :=
  match item.snippet with
  | none => .error (.keyError "snippet")
  | some s =>
    .ok (if metadata.isEmpty then [s]
      else [s] ++ (lookupMeta metadata "og:description").toList
        ++ (lookupMeta metadata "twitter:description").toList)

/-- Embeds `_text_extraction_possible`: `false` exactly for a hard paywall, a
subscriber-only access flag, or a video `og:type`; `true` otherwise, in
particular when no metadata is available. -/
def _text_extraction_possible (item : RawHit) (metadata : List (String × String)) : Bool :=
  if metadata.isEmpty then true
  else if lookupMeta metadata "lp:paywall" == some "hard" then false
  else if lookupMeta metadata "cxenseparse:nvl-smp-access" == some "subscriber" then false
  else
    match lookupMeta metadata "og:type" with
    | some t => !(strContains t.toLower "video")
    | none => true

/-- Embeds the inner candidate checks of `_get_image` for one of the two
image lists: the first entry's `src`, accepted only when it starts with
`http` after lowercasing; any missing piece falls through to `none`. -/
def _candidate_image (entries : Option (List CseEntry)) : Option String :=
  match entries with
  | some (e :: _) =>
    match e.src with
    | some possible_image =>
      if possible_image.toLower.startsWith "http" then some possible_image else none
    | none => none
  | _ => none

/-- Embeds `_get_image`: no `pagemap` means no image; otherwise try
`cse_thumbnail` first, then `cse_image`. -/
def _get_image (item : RawHit) : Option String :=
  match item.pagemap with
  | none => none
  | some pm =>
    match _candidate_image pm.cse_thumbnail with
    | some img => some img
    | none => _candidate_image pm.cse_image

/-- Embeds the inner `_get_if_date` of `_get_date`.  The `parseDate`
collaborator models `dateutil.parser.parse` followed by `.isoformat()`;
`none` is a parse exception (caught in the source, yielding `None`). -/
def _get_if_date (parseDate : String → Option String)
    (metadata : List (String × String)) (key : String) : Option String :=
  match lookupMeta metadata key with
  | some possible_date => parseDate possible_date
  | none => none

/-- Embeds `_get_date`: try the three date keys in order and return the first
parse success.  The source's `if not metadata: None` line evaluates `None`
without returning it, so it is a no-op and has no counterpart here. -/
def _get_date (parseDate : String → Option String) (item : RawHit)
    (metadata : List (String × String)) : Option String :=
  let date_keys := ["article:published_time", "dc.date.issued", "article:modified_time"]
  let possible_dates := date_keys.map (_get_if_date parseDate metadata)
  let found_dates := possible_dates.filterMap id
  found_dates.head?

/-- Embeds `_make_id`: reads `item['link']` (raising when the key is
missing), strips the scheme, then percent-encodes via the `quote`
collaborator (`urllib.parse.quote`). -/
def _make_id (quote : String → String) (item : RawHit) : Except PyErr String :=
  match item.link with
  | none => .error (.keyError "link")
  | some link => .ok (quote ((link.replace "http://" "").replace "https://" ""))

/-- Embeds `get_metadata_for_item`: extracts the raw metadata dict, then
builds the result dict.  The dict-literal values are evaluated in source
order, so the first missing required key (`title`, then `snippet`, then
`htmlSnippet`, then `link`) is the exception that propagates. -/
def get_metadata_for_item (quote : String → String)
    (parseDate : String → Option String) (item : RawHit) :
    Except PyErr ItemMetadata := do
  let raw_metadata := _get_metadata_dictionary item
  let title ← getKey item.title "title"
  let titles ← _get_titles item raw_metadata
  let snippet ← getKey item.snippet "snippet"
  let html_snippet ← getKey item.htmlSnippet "htmlSnippet"
  let snippets ← _get_snippets item raw_metadata
  let link ← getKey item.link "link"
  let ident ← _make_id quote item
  pure { title := title, titles := titles, snippet := snippet,
         html_snippet := html_snippet, snippets := snippets, link := link,
         text_extraction_possible := _text_extraction_possible item raw_metadata,
         image := _get_image item,
         date := _get_date parseDate item raw_metadata,
         id := ident }

end GoogleMetadata

/-- Abbreviation for an item carrying the neutral fallback score the
classification stage applies on failure. -/
def fallbackScored (item : Item) : Item :=
  ClassifyAction.to_scored_item item
    (ClassifyAction.get_default_score item "Classification call failed")

/-- Concrete fixture: a 1001-byte text body (one byte over the
`classify_batch_size = 1` threshold of 1000 bytes). -/
def bigBody : String := String.mk (List.replicate 1001 'x')

/-- Concrete fixture item whose text body alone exceeds a 1000-byte threshold. -/
def itemA : Item := { title := "a", link := "http://a", date := none, text_body := some bigBody }

/-- Concrete fixture item with a 1-byte text body. -/
def itemB : Item := { title := "b", link := "http://b", date := none, text_body := some "y" }

/-- Concrete fixture item with a 1-byte text body. -/
def itemC : Item := { title := "c", link := "http://c", date := none, text_body := some "z" }

/-- Concrete fixture score object. -/
def scoreOne : ClassifyAction.ScoreObj :=
  { score := 1, severity := 2, error := "", title := "tb" }

/-- Concrete fixture page-fetch collaborator: every page succeeds, page 1
signals a next page at start index 5, later pages signal no next page. -/
def fetchTwoPages : Nat → Except PyErr (SearchAction.GoogleResponse Nat) :=
  fun i => .ok { items := some [i, i + 10], nextStartIndex := if i == 1 then some 5 else none }

/-- Concrete fixture page-fetch collaborator: the page call succeeds with a
JSON body that has no `items` key. -/
def fetchNoItemsKey : Nat → Except PyErr (SearchAction.GoogleResponse Nat) :=
  fun _ => .ok { items := none, nextStartIndex := none }

/-- Concrete fixture: the page body `fetchTwoPages` serves at start index 1. -/
def pageOne : SearchAction.GoogleResponse Nat :=
  { items := some [1, 11], nextStartIndex := some 5 }

/-- Concrete fixture: the page body `fetchTwoPages` serves at start index 5. -/
def pageTwo : SearchAction.GoogleResponse Nat :=
  { items := some [5, 15], nextStartIndex := none }

/-- Concrete fixture: a successful page body with no `items` key. -/
def pageNoItems : SearchAction.GoogleResponse Nat :=
  { items := none, nextStartIndex := none }

/-- Concrete fixture raw hit with all four required top-level keys present. -/
def completeHit : GoogleMetadata.RawHit :=
  { title := some "t", snippet := some "s", htmlSnippet := some "<b>s</b>",
    link := some "http://example.org/a", pagemap := none }

/-- Concrete fixture raw hit with no keys at all. -/
def emptyHit : GoogleMetadata.RawHit :=
  { title := none, snippet := none, htmlSnippet := none, link := none, pagemap := none }

/-- Whatever state the batching loop is in, a successful run appends each
remaining item to exactly one batch, in order: the flattened output
(closed batches, then the open batch) extends the flattened input state by
the remaining items. -/
theorem batchLoop_flatten (max_batch_size : Nat) :
    ∀ (items : List Item) (len : Nat) (cur : List Item) (batches : List (List Item))
      (res : List (List Item) × List Item),
      ClassifyBatchingAction.batchLoop max_batch_size items len cur batches = .ok res →
      res.1.flatten ++ res.2 = batches.flatten ++ cur ++ items
  | [], len, cur, batches, res, h => by
    simp only [ClassifyBatchingAction.batchLoop] at h
    cases h
    simp
  | item :: rest, len, cur, batches, res, h => by
    rw [ClassifyBatchingAction.batchLoop] at h
    split at h
    · cases h
    · simp only [] at h
      split at h
      · have := batchLoop_flatten max_batch_size rest _ [] (batches ++ [cur ++ [item]]) res h
        simp only [List.flatten_append, List.flatten_cons, List.flatten_nil,
          List.append_nil, List.append_assoc] at this ⊢
        simpa using this
      · have := batchLoop_flatten max_batch_size rest _ (cur ++ [item]) batches res h
        simpa [List.append_assoc] using this

/-- C3: for every input item list (including the internal-failure path that
returns the single batch `[items]`), concatenating the batches produced by
the batcher yields exactly the input list — same members, same multiplicity,
same order. -/
theorem batcher_flatten_eq (classify_batch_size : Nat) (items : List Item) :
    (ClassifyBatchingAction.main classify_batch_size items).flatten = items := by
  simp only [ClassifyBatchingAction.main]
  cases h : ClassifyBatchingAction.batchLoop (classify_batch_size * 1000) items 0 [] [] with
  | error e => simp
  | ok res =>
    obtain ⟨bs, cur⟩ := res
    have hflat := batchLoop_flatten (classify_batch_size * 1000) items 0 [] [] ⟨bs, cur⟩ h
    simp only [List.flatten_nil, List.nil_append] at hflat
    dsimp only
    by_cases hlen : cur.length > 0
    · rw [if_pos hlen]
      simpa [List.flatten_append] using hflat
    · rw [if_neg hlen]
      have hc : cur = [] := List.length_eq_zero.mp (Nat.eq_zero_of_not_pos hlen)
      rw [hc, List.append_nil] at hflat
      exact hflat

set_option maxRecDepth 100000 in
/-- C1: refuted on the code — the running byte counter is NOT reset when a
batch closes (only the batch list is), so with a 1000-byte threshold and
text-body byte sizes 1001, 1, 1 the code emits the singleton batches
`[[itemA], [itemB], [itemC]]`, although the members of the batch holding
`itemB` together with `itemC` only amount to 2 bytes: a batch boundary is
crossed without the batch's own members exceeding the threshold, and the
batches after the first start with the counter already over threshold even
though no single remaining item exceeds it. -/
theorem batcher_counter_never_reset :
    ClassifyBatchingAction.main 1 [itemA, itemB, itemC] = [[itemA], [itemB], [itemC]]
    ∧ "y".utf8ByteSize + "z".utf8ByteSize ≤ 1 * 1000 := by
  refine ⟨rfl, by decide⟩

/-- Element lookup in a mapped zip: the i-th element, when both inputs have an
i-th element, combines them. -/
theorem map_zip_getElem? {α β γ : Type _} (f : α → β → γ) :
    ∀ (l1 : List α) (l2 : List β) (i : Nat) (a : α) (b : β),
      l1[i]? = some a → l2[i]? = some b →
      ((l1.zip l2).map fun p => f p.1 p.2)[i]? = some (f a b)
  | [], _, _, _, _, ha, _ => by simp at ha
  | _ :: _, [], _, _, _, _, hb => by simp at hb
  | x :: xs, y :: ys, 0, a, b, ha, hb => by
    simp only [List.getElem?_cons_zero, Option.some.injEq] at ha hb
    subst ha; subst hb
    simp [List.zip_cons_cons]
  | x :: xs, y :: ys, i + 1, a, b, ha, hb => by
    rw [List.zip_cons_cons]
    simpa using map_zip_getElem? f xs ys i a b (by simpa using ha) (by simpa using hb)

/-- On a failing classification call, `ClassifyAction.main` maps the neutral
fallback over the whole batch. -/
theorem classify_failure_eq_map_fallback
    (call : ClassifyAction.ClassifyRequest → Except PyErr ClassifyAction.ClassifyResponse)
    (language search_term : String) (items : List Item)
    (snippets : List ClassifyAction.ClassifySnippet) (e : PyErr)
    (hsn : ClassifyAction.classifySnippets items = .ok snippets)
    (hcall : call { name := search_term, snippets := snippets } = .error e) :
    ClassifyAction.main call (language, search_term, items) = items.map fallbackScored := by
  simp only [ClassifyAction.main, hsn, hcall, bind, Except.bind]
  rfl

/-- C4: whenever the classification call for a batch fails, every item of the
batch receives the neutral fallback: `score = 0`, `severity = 0`,
`scoring_errors` set to the fixed non-empty diagnostic message
`"Classification call failed"`, and `scoring_title` equal to the item's own
title. -/
theorem classify_failure_fallback
    (call : ClassifyAction.ClassifyRequest → Except PyErr ClassifyAction.ClassifyResponse)
    (language search_term : String) (items : List Item)
    (snippets : List ClassifyAction.ClassifySnippet) (e : PyErr)
    (hsn : ClassifyAction.classifySnippets items = .ok snippets)
    (hcall : call { name := search_term, snippets := snippets } = .error e) :
    ClassifyAction.main call (language, search_term, items) = items.map fallbackScored
    ∧ (∀ item ∈ items,
        (fallbackScored item).score = some 0
        ∧ (fallbackScored item).severity = some 0
        ∧ (fallbackScored item).scoring_errors = some "Classification call failed"
        ∧ (fallbackScored item).scoring_title = some item.title)
    ∧ "Classification call failed" ≠ "" := by
  refine ⟨classify_failure_eq_map_fallback call language search_term items snippets e hsn hcall,
    fun item _ => ⟨rfl, rfl, rfl, rfl⟩, by decide⟩

/-- Witness for C4: a one-item batch and a collaborator answering HTTP 500. -/
theorem classify_failure_fallback_witness :
    ClassifyAction.main (fun _ => .error (.httpError 500)) ("en", "t", [itemB]) =
      [itemB].map fallbackScored
    ∧ (∀ item ∈ [itemB],
        (fallbackScored item).score = some 0
        ∧ (fallbackScored item).severity = some 0
        ∧ (fallbackScored item).scoring_errors = some "Classification call failed"
        ∧ (fallbackScored item).scoring_title = some item.title)
    ∧ "Classification call failed" ≠ "" :=
  classify_failure_fallback (fun _ => .error (.httpError 500)) "en" "t" [itemB]
    [{ title := "b", snippet := "y", url := "http://b", date := none }] (.httpError 500) rfl rfl

/-- C5: on a successful classification call the scores apply strictly by
position — the i-th score object of the response produces the i-th output
item by updating the i-th input item — and with a full-length scores list no
item is dropped. -/
theorem classify_success_positional
    (call : ClassifyAction.ClassifyRequest → Except PyErr ClassifyAction.ClassifyResponse)
    (language search_term : String) (items : List Item)
    (snippets : List ClassifyAction.ClassifySnippet) (resp : ClassifyAction.ClassifyResponse)
    (hsn : ClassifyAction.classifySnippets items = .ok snippets)
    (hcall : call { name := search_term, snippets := snippets } = .ok resp) :
    (∀ (i : Nat) (item : Item) (score : ClassifyAction.ScoreObj),
        items[i]? = some item → resp.scores[i]? = some score →
        (ClassifyAction.main call (language, search_term, items))[i]? =
          some (ClassifyAction.to_scored_item item score))
    ∧ (resp.scores.length = items.length →
        (ClassifyAction.main call (language, search_term, items)).length = items.length) := by
  have hmain : ClassifyAction.main call (language, search_term, items) =
      (items.zip resp.scores).map fun p => ClassifyAction.to_scored_item p.1 p.2 := by
    simp only [ClassifyAction.main, hsn, hcall, bind, Except.bind, pure, Except.pure]
  constructor
  · intro i item score ha hb
    rw [hmain]
    exact map_zip_getElem? _ items resp.scores i item score ha hb
  · intro hlen
    rw [hmain]
    simp [List.length_zip, hlen]

/-- Witness for C5: a two-item batch with a two-score response; both positions
and the length are checked concretely. -/
theorem classify_success_positional_witness :
    (∀ (i : Nat) (item : Item) (score : ClassifyAction.ScoreObj),
        [itemB, itemC][i]? = some item →
        (ClassifyAction.ClassifyResponse.mk [scoreOne, scoreOne]).scores[i]? = some score →
        (ClassifyAction.main (fun _ => .ok { scores := [scoreOne, scoreOne] })
          ("en", "t", [itemB, itemC]))[i]? =
          some (ClassifyAction.to_scored_item item score))
    ∧ ((ClassifyAction.ClassifyResponse.mk [scoreOne, scoreOne]).scores.length =
          [itemB, itemC].length →
        (ClassifyAction.main (fun _ => .ok { scores := [scoreOne, scoreOne] })
          ("en", "t", [itemB, itemC])).length = [itemB, itemC].length) :=
  classify_success_positional (fun _ => .ok { scores := [scoreOne, scoreOne] }) "en" "t"
    [itemB, itemC]
    [{ title := "b", snippet := "y", url := "http://b", date := none },
     { title := "c", snippet := "z", url := "http://c", date := none }]
    { scores := [scoreOne, scoreOne] } rfl rfl

/-- C2: refuted on the code — when the classification call succeeds but the
response carries fewer scores than the batch has items, `zip` silently
truncates: a 2-item batch with a 1-score response returns a single scored
item, dropping the second item of the batch. -/
theorem classify_short_scores_drops_items :
    ClassifyAction.main (fun _ => .ok { scores := [scoreOne] }) ("en", "term", [itemB, itemC]) =
      [ClassifyAction.to_scored_item itemB scoreOne]
    ∧ [itemB, itemC].length = 2 := ⟨rfl, rfl⟩

/-- Invariant of the pagination loop: a successful run fetches at most
`budget` pages, every page except the last signalled a next page, and when
the budget is positive the first collected page is the response fetched at
the loop's current start index. -/
theorem fetchLoop_spec {H : Type _} (fetch : Nat → Except PyErr (SearchAction.GoogleResponse H)) :
    ∀ (budget idx : Nat) (rs : List (SearchAction.GoogleResponse H)),
      SearchAction.fetchLoop fetch budget idx = .ok rs →
      rs.length ≤ budget
      ∧ (∀ (i : Nat) (r : SearchAction.GoogleResponse H),
          rs[i]? = some r → i + 1 < rs.length → r.nextStartIndex.isSome)
      ∧ (0 < budget → ∃ r rest, fetch idx = .ok r ∧ rs = r :: rest)
  | 0, idx, rs, h => by
    simp only [SearchAction.fetchLoop] at h
    cases h
    refine ⟨Nat.le_refl 0, ?_, ?_⟩
    · intro i r hr _
      simp at hr
    · intro h0
      exact absurd h0 (by omega)
  | budget + 1, idx, rs, h => by
    rw [SearchAction.fetchLoop] at h
    split at h
    · cases h
    · rename_i response hfetch
      split at h
      · rename_i nextIdx hnext
        split at h
        · cases h
        · rename_i rest hrec
          cases h
          obtain ⟨ih1, ih2, _⟩ := fetchLoop_spec fetch budget nextIdx rest hrec
          refine ⟨by simpa using Nat.succ_le_succ ih1, ?_, ?_⟩
          · intro i r hr hlt
            cases i with
            | zero =>
              simp only [List.getElem?_cons_zero, Option.some.injEq] at hr
              subst hr
              simp [hnext]
            | succ j =>
              simp only [List.getElem?_cons_succ] at hr
              exact ih2 j r hr (by simp only [List.length_cons] at hlt; omega)
          · intro _
            exact ⟨response, rest, hfetch, rfl⟩
      · rename_i hnext
        cases h
        refine ⟨by simp, ?_, ?_⟩
        · intro i r hr hlt
          simp only [List.length_cons, List.length_nil] at hlt
          omega
        · intro _
          exact ⟨response, [], hfetch, rfl⟩

/-- When every collected page body has an `items` key, the flattening step
concatenates the pages' hit lists in page order. -/
theorem flattenResults_ok {H : Type _} :
    ∀ (rs : List (SearchAction.GoogleResponse H)), (∀ r ∈ rs, r.items.isSome) →
      SearchAction.flattenResults rs = .ok (rs.flatMap fun r => r.items.getD [])
  | [], _ => rfl
  | r :: rs, hall => by
    obtain ⟨hs, hhs⟩ := Option.isSome_iff_exists.mp (hall r (List.mem_cons_self r rs))
    have ih := flattenResults_ok rs fun x hx => hall x (List.mem_cons_of_mem r hx)
    rw [SearchAction.flattenResults, hhs, ih]
    simp [hhs]

/-- When some collected page body lacks the `items` key, the flattening step
raises `KeyError 'items'`. -/
theorem flattenResults_error {H : Type _} :
    ∀ (rs : List (SearchAction.GoogleResponse H)), (∃ r ∈ rs, r.items = none) →
      SearchAction.flattenResults rs = .error (.keyError "items")
  | [], h => by simp at h
  | r :: rs, h => by
    cases hr : r.items with
    | none => rw [SearchAction.flattenResults, hr]
    | some hs =>
      obtain ⟨bad, hbad, hnone⟩ := h
      have hmem : bad ∈ rs := by
        cases List.mem_cons.mp hbad with
        | inl heq => subst heq; rw [hr] at hnone; cases hnone
        | inr hm => exact hm
      rw [SearchAction.flattenResults, hr, flattenResults_error rs ⟨bad, hmem, hnone⟩]

/-- C7: for every page-fetch collaborator and depth, a successful pagination
run fetches at most `depth` pages, fetches a further page only when the
previous page signalled a next start index, starts at index 1, and the final
result flattens the fetched pages' hits in page order. -/
theorem search_pagination {H : Type _}
    (fetch : Nat → Except PyErr (SearchAction.GoogleResponse H)) (depth : Nat)
    (rs : List (SearchAction.GoogleResponse H))
    (h : SearchAction.fetchLoop fetch depth 1 = .ok rs) :
    rs.length ≤ depth
    ∧ (∀ (i : Nat) (r : SearchAction.GoogleResponse H),
        rs[i]? = some r → i + 1 < rs.length → r.nextStartIndex.isSome)
    ∧ (0 < depth → ∃ r rest, fetch 1 = .ok r ∧ rs = r :: rest)
    ∧ SearchAction.main fetch depth = SearchAction.flattenResults rs
    ∧ ((∀ r ∈ rs, r.items.isSome) →
        SearchAction.main fetch depth = .ok (rs.flatMap fun r => r.items.getD [])) := by
  obtain ⟨h1, h2, h3⟩ := fetchLoop_spec fetch depth 1 rs h
  have hm : SearchAction.main fetch depth = SearchAction.flattenResults rs := by
    simp [SearchAction.main, h]
  exact ⟨h1, h2, h3, hm, fun hall => hm.trans (flattenResults_ok rs hall)⟩

/-- Witness for C7: the two-page fixture collaborator at depth 2. -/
theorem search_pagination_witness :
    [pageOne, pageTwo].length ≤ 2
    ∧ (∀ (i : Nat) (r : SearchAction.GoogleResponse Nat),
        [pageOne, pageTwo][i]? = some r → i + 1 < [pageOne, pageTwo].length →
        r.nextStartIndex.isSome)
    ∧ (0 < 2 → ∃ r rest, fetchTwoPages 1 = .ok r ∧ [pageOne, pageTwo] = r :: rest)
    ∧ SearchAction.main fetchTwoPages 2 = SearchAction.flattenResults [pageOne, pageTwo]
    ∧ ((∀ r ∈ [pageOne, pageTwo], r.items.isSome) →
        SearchAction.main fetchTwoPages 2 =
          .ok ([pageOne, pageTwo].flatMap fun r => r.items.getD [])) :=
  search_pagination fetchTwoPages 2 [pageOne, pageTwo] rfl

/-- C10: when every page call of a run succeeds but some fetched page body
has no `items` key, the final flattening raises `KeyError 'items'` and the
whole language branch fails, although no transport or HTTP error occurred on
any page. -/
theorem search_missing_items_key_fails {H : Type _}
    (fetch : Nat → Except PyErr (SearchAction.GoogleResponse H)) (depth : Nat)
    (rs : List (SearchAction.GoogleResponse H))
    (hok : SearchAction.fetchLoop fetch depth 1 = .ok rs)
    (hmiss : ∃ r ∈ rs, r.items = none) :
    SearchAction.main fetch depth = .error (.keyError "items") := by
  have hm : SearchAction.main fetch depth = SearchAction.flattenResults rs := by
    simp [SearchAction.main, hok]
  exact hm.trans (flattenResults_error rs hmiss)

/-- Witness for C10: a single page that succeeds with no `items` key. -/
theorem search_missing_items_key_fails_witness :
    SearchAction.main fetchNoItemsKey 1 = .error (.keyError "items") :=
  search_missing_items_key_fails fetchNoItemsKey 1 [pageNoItems] rfl
    ⟨pageNoItems, by simp, rfl⟩

/-- C6 counterexample: on a raw hit with no keys, `get_metadata_for_item`
raises `KeyError 'title'` instead of returning a metadata dictionary — the
call is not total over raw hits. -/
theorem metadata_missing_title_raises :
    GoogleMetadata.get_metadata_for_item (fun s => s) (fun _ => none) emptyHit =
      .error (.keyError "title") := rfl

/-- C6 amended: provided the raw hit carries the four top-level fields
`title`, `snippet`, `htmlSnippet` and `link`, `get_metadata_for_item`
returns a metadata dictionary; only the metadata-block extraction step has
an internal error handler, and a hit missing one of those four fields makes
the whole call raise. -/
theorem metadata_total_on_complete_hit (quote : String → String)
    (parseDate : String → Option String) (item : GoogleMetadata.RawHit)
    (ht : item.title.isSome) (hs : item.snippet.isSome)
    (hh : item.htmlSnippet.isSome) (hl : item.link.isSome) :
    ∃ m, GoogleMetadata.get_metadata_for_item quote parseDate item = .ok m := by
  obtain ⟨ot, os, oh, ol, pm⟩ := item
  obtain ⟨t, rfl⟩ := Option.isSome_iff_exists.mp ht
  obtain ⟨s, rfl⟩ := Option.isSome_iff_exists.mp hs
  obtain ⟨hsnip, rfl⟩ := Option.isSome_iff_exists.mp hh
  obtain ⟨l, rfl⟩ := Option.isSome_iff_exists.mp hl
  exact ⟨_, rfl⟩

/-- Witness for amended C6 at a concrete complete raw hit. -/
theorem metadata_total_on_complete_hit_witness :
    ∃ m, GoogleMetadata.get_metadata_for_item (fun s => s) (fun _ => none) completeHit =
      .ok m :=
  metadata_total_on_complete_hit (fun s => s) (fun _ => none) completeHit rfl rfl rfl rfl

/-- C8: with no configured languages the top orchestrator returns the empty
result set, independently of the sub-orchestrator; in general its output is
a permutation of the flattened per-language scored item lists, sorted by
score descending. -/
theorem orchestrator_empty_and_sorted {α : Type} (getScore : α → ℚ)
    (configured_languages selected_languages : List String) (search_term : String)
    (depth : Nat) (sub_orchestrator : String → String → Nat → List α) :
    (configured_languages = [] →
      OrchestrateSearch.orchestrator_function getScore configured_languages
        selected_languages search_term depth sub_orchestrator = [])
    ∧ List.Perm
        (OrchestrateSearch.orchestrator_function getScore configured_languages
          selected_languages search_term depth sub_orchestrator)
        ((selected_languages.filter fun language =>
            configured_languages.contains language).flatMap
          fun language => sub_orchestrator language search_term depth)
    ∧ List.Pairwise (fun a b => getScore b ≤ getScore a)
        (OrchestrateSearch.orchestrator_function getScore configured_languages
          selected_languages search_term depth sub_orchestrator) := by
  have htrans : ∀ a b c : α, (fun a b => decide (getScore b ≤ getScore a)) a b →
      (fun a b => decide (getScore b ≤ getScore a)) b c →
      (fun a b => decide (getScore b ≤ getScore a)) a c := by
    intro a b c hab hbc
    simp only [decide_eq_true_eq] at hab hbc ⊢
    exact le_trans hbc hab
  have htotal : ∀ a b : α, (fun a b => decide (getScore b ≤ getScore a)) a b ||
      (fun a b => decide (getScore b ≤ getScore a)) b a := by
    intro a b
    rcases le_total (getScore a) (getScore b) with h | h <;> simp [h]
  refine ⟨?_, ?_, ?_⟩
  · intro hempty
    subst hempty
    simp [OrchestrateSearch.orchestrator_function]
  · by_cases hempty : configured_languages.isEmpty
    · have hc := List.isEmpty_iff.mp hempty
      subst hc
      simp [OrchestrateSearch.orchestrator_function]
    · simp only [OrchestrateSearch.orchestrator_function, hempty, Bool.false_eq_true,
        if_false, OrchestrateSearch.sort_results]
      exact List.mergeSort_perm _ _
  · by_cases hempty : configured_languages.isEmpty
    · have hc := List.isEmpty_iff.mp hempty
      subst hc
      simp [OrchestrateSearch.orchestrator_function]
    · simp only [OrchestrateSearch.orchestrator_function, hempty, Bool.false_eq_true,
        if_false, OrchestrateSearch.sort_results]
      exact (List.sorted_mergeSort htrans htotal _).imp fun h => by simpa using h

/-- Witness for C8: one configured language, two selected, score given by the
item itself. -/
theorem orchestrator_empty_and_sorted_witness :
    ((["nb-NO"] : List String) = [] →
      OrchestrateSearch.orchestrator_function (fun q : ℚ => q) ["nb-NO"] ["nb-NO", "sv-SE"]
        "name" 3 (fun _ _ _ => [1, 3, 2]) = [])
    ∧ List.Perm
        (OrchestrateSearch.orchestrator_function (fun q : ℚ => q) ["nb-NO"] ["nb-NO", "sv-SE"]
          "name" 3 (fun _ _ _ => [1, 3, 2]))
        (((["nb-NO", "sv-SE"] : List String).filter fun language =>
            (["nb-NO"] : List String).contains language).flatMap
          fun _ => [1, 3, 2])
    ∧ List.Pairwise (fun a b : ℚ => b ≤ a)
        (OrchestrateSearch.orchestrator_function (fun q : ℚ => q) ["nb-NO"] ["nb-NO", "sv-SE"]
          "name" 3 (fun _ _ _ => [1, 3, 2])) :=
  orchestrator_empty_and_sorted (fun q : ℚ => q) ["nb-NO"] ["nb-NO", "sv-SE"] "name" 3
    (fun _ _ _ => [1, 3, 2])

/-- Stability of the embedded descending sort: filtering the sorted output to
any one score value yields exactly the same subsequence as filtering its
input. -/
theorem sort_results_filter_score {α : Type} (getScore : α → ℚ) (s : ℚ) (l : List α) :
    (OrchestrateSearch.sort_results getScore l).filter (fun r => decide (getScore r = s)) =
      l.filter (fun r => decide (getScore r = s)) := by
  have htrans : ∀ a b c : α, (fun a b => decide (getScore b ≤ getScore a)) a b →
      (fun a b => decide (getScore b ≤ getScore a)) b c →
      (fun a b => decide (getScore b ≤ getScore a)) a c := by
    intro a b c hab hbc
    simp only [decide_eq_true_eq] at hab hbc ⊢
    exact le_trans hbc hab
  have htotal : ∀ a b : α, (fun a b => decide (getScore b ≤ getScore a)) a b ||
      (fun a b => decide (getScore b ≤ getScore a)) b a := by
    intro a b
    rcases le_total (getScore a) (getScore b) with h | h <;> simp [h]
  have hpair : (l.filter fun r => decide (getScore r = s)).Pairwise
      (fun a b => decide (getScore b ≤ getScore a) = true) := by
    apply List.pairwise_of_forall_mem_list
    intro a ha b hb
    have ha' := (List.mem_filter.mp ha).2
    have hb' := (List.mem_filter.mp hb).2
    simp only [decide_eq_true_eq] at ha' hb'
    simp [ha', hb']
  have hsub : List.Sublist (l.filter fun r => decide (getScore r = s))
      (List.mergeSort l fun a b => decide (getScore b ≤ getScore a)) :=
    List.sublist_mergeSort htrans htotal hpair (List.filter_sublist l)
  have hself : ((l.filter fun r => decide (getScore r = s)).filter
      fun r => decide (getScore r = s)) = l.filter fun r => decide (getScore r = s) :=
    List.filter_eq_self.mpr fun a ha => (List.mem_filter.mp ha).2
  have hsub2 : List.Sublist (l.filter fun r => decide (getScore r = s))
      ((List.mergeSort l fun a b => decide (getScore b ≤ getScore a)).filter
        fun r => decide (getScore r = s)) :=
    hself ▸ hsub.filter (fun r => decide (getScore r = s))
  have hperm := (List.mergeSort_perm l fun a b => decide (getScore b ≤ getScore a)).filter
    fun r => decide (getScore r = s)
  exact (hsub2.eq_of_length hperm.length_eq.symm).symm

/-- C9: the top orchestrator's final ranking is a stable sort — for every
score value, the subsequence of output items carrying that score equals the
corresponding subsequence of the flattened pre-sort list (language
submission order, then within-language item order). -/
theorem orchestrator_sort_stable {α : Type} (getScore : α → ℚ)
    (configured_languages selected_languages : List String) (search_term : String)
    (depth : Nat) (sub_orchestrator : String → String → Nat → List α) (s : ℚ) :
    (OrchestrateSearch.orchestrator_function getScore configured_languages
        selected_languages search_term depth sub_orchestrator).filter
      (fun r => decide (getScore r = s)) =
      ((selected_languages.filter fun language =>
          configured_languages.contains language).flatMap
        fun language => sub_orchestrator language search_term depth).filter
        (fun r => decide (getScore r = s)) := by
  by_cases hempty : configured_languages.isEmpty
  · have hc := List.isEmpty_iff.mp hempty
    subst hc
    simp [OrchestrateSearch.orchestrator_function]
  · simp only [OrchestrateSearch.orchestrator_function, hempty, Bool.false_eq_true, if_false]
    exact sort_results_filter_score getScore s _
